import Mathlib

/-!
Verification development for the AIMS Journey Mapper realtime transcription
session engine.  The definitions below are a shallow embedding of
`src/components/LiveSession.tsx` (buffering, debounce-commit policy,
connection-state handling and manual entry) and of
`src/services/geminiService.ts` (the `LiveApiService` resource lifecycle and
the `createBlob` PCM16 audio encoder).  Transcript text is modelled as
`List Char`; JS `String.prototype.trim` is modelled by `trim` below; machine
time (`Date.now()`, `setTimeout`) is modelled by explicit `Nat` millisecond
timestamps; the debounce timer is an `Option Nat` absolute deadline.  Audio
samples are modelled as exact rationals (the claims under verification are
about clamping, scaling and byte layout, not binary floating-point rounding).
-/

namespace AimsJM

/-- Transcript text is modelled as a list of characters. -/
abbrev Str := List Char

/-- Whitespace test used by the model of `String.prototype.trim`. -/
def isWS (c : Char) : Bool :=
  c == ' ' || c == '\t' || c == '\n' || c == '\r'

/-- Drop leading whitespace. -/
def trimLeft (s : Str) : Str := s.dropWhile isWS

/-- Drop trailing whitespace. -/
def trimRight : Str → Str
  | [] => []
  | c :: t =>
    match trimRight t with
    | [] => if isWS c then [] else [c]
    | r => c :: r

/-- Model of JS `String.prototype.trim`: drop leading and trailing whitespace. -/
def trim (s : Str) : Str := trimRight (trimLeft s)

-- ---------------------------------------------------------------------------
-- Data model (src/unnamed/part_003: types.ts)
-- ---------------------------------------------------------------------------

/-- The `speaker` union of `TranscriptItem` in types.ts: `'user' | 'agent' | 'model'`. -/
inductive Speaker where
  | user
  | agent
  | model
deriving DecidableEq

/-- A committed transcript entry (`TranscriptItem` in types.ts); `timestamp`
models `Date` as milliseconds, `id` is the JS `Date.now().toString()` plus a
suffix. -/
structure TranscriptItem where
  id : String
  speaker : Speaker
  text : Str
  timestamp : Nat
deriving DecidableEq

/-- The `ConnectionState` enum of types.ts. -/
inductive ConnState where
  | DISCONNECTED
  | CONNECTING
  | CONNECTED
  | ERROR
deriving DecidableEq

/-- State of the `LiveSession` component together with the `LiveApiService`
resource flags.  `debounceTimer` is the pending absolute deadline of the
`setTimeout(commitInputToHistory, 1500)` call, or `none`.  `sessionOpen`
models `sessionPromise !== null`; `openTransports` counts transports opened by
`ai.live.connect` and not yet closed by `session.close()`. -/
structure EngineState where
  connectionState : ConnState
  currentInput : Str
  currentOutput : Str
  liveInputText : Str
  liveOutputText : Str
  debounceTimer : Option Nat
  history : List TranscriptItem
  mediaStreamActive : Bool
  audioContextActive : Bool
  sessionOpen : Bool
  openTransports : Nat
deriving DecidableEq

/-- The debounce quiet period: 1500 ms in `LiveSession.tsx`. -/
def quietMs : Nat := 1500

/-- Entry appended by `commitInputToHistory`. -/
def mkUserEntry (now : Nat) (txt : Str) : TranscriptItem :=
  ⟨toString now ++ "-user", Speaker.user, txt, now⟩

/-- Entry appended by the `turnComplete` branch for the agent channel. -/
def mkAgentEntry (now : Nat) (txt : Str) : TranscriptItem :=
  ⟨toString now ++ "-agent", Speaker.model, txt, now⟩

/-- Entry appended by `handleManualSubmit`. -/
def mkManualEntry (now : Nat) (txt : Str) : TranscriptItem :=
  ⟨toString now ++ "-manual", Speaker.user, txt, now⟩

/-- Model of `commitInputToHistory` (LiveSession.tsx lines 46-57): cancel the
pending debounce timer; if the accumulated human text is non-empty after
trimming, append a user entry and clear the buffer, otherwise leave the buffer
as it is. -/
def commitInputToHistory (now : Nat) (s : EngineState) : EngineState :=
  if trim s.currentInput = [] then
    { s with debounceTimer := none }
  else
    { s with debounceTimer := none,
             history := s.history ++ [mkUserEntry now (trim s.currentInput)],
             currentInput := [],
             liveInputText := [] }

/-- The events the engine reacts to.  `inputDelta` and `outputDelta` are the
`inputTranscription` / `outputTranscription` branches of the `onMessage`
callback (a server message carrying several parts is the composition of the
branch events in source order); `connectReq` is `handleConnect` up to the
`ai.live.connect` call, `connectOpened` the `onopen` callback together with
`startAudioStream`, `connectFailed` the catch branch. -/
inductive Event where
  | inputDelta (txt : Str)
  | outputDelta (txt : Str)
  | turnComplete
  | errorEvt
  | closedEvt
  | connectReq
  | connectOpened
  | connectFailed
  | disconnectReq
  | manualSubmit (txt : Str)

/-- One atomic handler execution at wall-clock time `now` (the value
`Date.now()` would return inside the handler), translated branch by branch
from `LiveSession.tsx` and `geminiService.ts`. -/
def step (now : Nat) (e : Event) (s : EngineState) : EngineState :=
  match e with
  | Event.inputDelta txt =>
    -- onMessage, `content?.inputTranscription` branch (lines 87-99):
    -- `if (text)` guards on a non-empty delta; append, show live text and
    -- (re)start the debounce timer.
    if txt = [] then s
    else
      { s with currentInput := s.currentInput ++ txt,
               liveInputText := s.currentInput ++ txt,
               debounceTimer := some (now + quietMs) }
  | Event.outputDelta txt =>
    -- onMessage, `content?.outputTranscription` branch (lines 101-107):
    -- append only; no timer is involved.
    if txt = [] then s
    else
      { s with currentOutput := s.currentOutput ++ txt,
               liveOutputText := s.currentOutput ++ txt }
  | Event.turnComplete =>
    -- onMessage, `content?.turnComplete` branch (lines 109-121).
    let s1 := commitInputToHistory now s
    if trim s1.currentOutput = [] then s1
    else
      { s1 with history := s1.history ++ [mkAgentEntry now (trim s1.currentOutput)],
                currentOutput := [],
                liveOutputText := [] }
  | Event.errorEvt =>
    -- onError callback (lines 123-126): log and set state only.
    { s with connectionState := ConnState.ERROR }
  | Event.closedEvt =>
    -- onClose callback (line 127): set state only.
    { s with connectionState := ConnState.DISCONNECTED }
  | Event.connectReq =>
    -- handleConnect (lines 75-83) through LiveApiService.connect (lines
    -- 46-86): state := CONNECTING and `this.sessionPromise = ai.live.connect`
    -- unconditionally; a previously stored promise is overwritten without
    -- being closed, so a previously open transport stays open.
    { s with connectionState := ConnState.CONNECTING,
             sessionOpen := true,
             openTransports := s.openTransports + 1 }
  | Event.connectOpened =>
    -- onopen callback: state := CONNECTED, kickoff sendText (no engine-state
    -- effect) and startAudioStream (lines 89-120) acquiring the microphone
    -- stream and the audio context.
    { s with connectionState := ConnState.CONNECTED,
             mediaStreamActive := true,
             audioContextActive := true }
  | Event.connectFailed =>
    -- catch branch of handleConnect (lines 129-132).
    { s with connectionState := ConnState.ERROR }
  | Event.disconnectReq =>
    -- handleDisconnect (lines 135-144): LiveApiService.disconnect (lines
    -- 122-140) stops the media tracks, closes the audio context and closes
    -- the stored session if any; then state := DISCONNECTED,
    -- commitInputToHistory, and both buffers and live texts are cleared.
    let s1 : EngineState :=
      { s with mediaStreamActive := false,
               audioContextActive := false,
               sessionOpen := false,
               openTransports := if s.sessionOpen then s.openTransports - 1
                                 else s.openTransports,
               connectionState := ConnState.DISCONNECTED }
    let s2 := commitInputToHistory now s1
    { s2 with liveInputText := [],
              liveOutputText := [],
              currentInput := [],
              currentOutput := [] }
  | Event.manualSubmit txt =>
    -- handleManualSubmit (lines 59-73): `if (!pastedText.trim()) return`.
    if trim txt = [] then s
    else
      { s with history := s.history ++ [mkManualEntry now (trim txt)] }

/-- If the pending debounce deadline is due at or before time `t`, the
`setTimeout` callback (`commitInputToHistory`) fires at its deadline. -/
def fireIfDue (t : Nat) (s : EngineState) : EngineState :=
  match s.debounceTimer with
  | none => s
  | some d => if d ≤ t then commitInputToHistory d s else s

/-- Run a trace of timestamped events (times nondecreasing); before each
event is delivered, a debounce deadline that has already passed fires. -/
def run : EngineState → List (Nat × Event) → EngineState
  | s, [] => s
  | s, (t, e) :: rest => run (step t e (fireIfDue t s)) rest

/-- The component's initial state. -/
def initState : EngineState :=
  ⟨ConnState.DISCONNECTED, [], [], [], [], none, [], false, false, false, 0⟩

/-- A concrete connected session: connect then transport open. -/
def connectedState : EngineState :=
  run initState [(0, Event.connectReq), (0, Event.connectOpened)]

-- ---------------------------------------------------------------------------
-- Machinery for the debounce-commit property (human-channel delta traces)
-- ---------------------------------------------------------------------------

/-- A timestamped human-channel delta trace is chained after time `prev` when
times are nondecreasing, consecutive deltas arrive strictly within the quiet
period of the previous one, and every delta is non-empty. -/
def chainedOk : Nat → List (Nat × Str) → Bool
  | _, [] => true
  | prev, (t, d) :: rest =>
    decide (prev ≤ t) && decide (t < prev + quietMs) && decide (d ≠ []) &&
      chainedOk t rest

/-- Arrival time of the last delta of the trace (`prev` for the empty trace). -/
def lastTime : Nat → List (Nat × Str) → Nat
  | prev, [] => prev
  | _, (t, _) :: rest => lastTime t rest

/-- Concatenation of the delta texts in arrival order. -/
def deltasText : List (Nat × Str) → Str
  | [] => []
  | (_, d) :: rest => d ++ deltasText rest

/-- View a delta trace as a trace of `inputDelta` events. -/
def humanEvents (L : List (Nat × Str)) : List (Nat × Event) :=
  L.map (fun p => (p.1, Event.inputDelta p.2))

-- ---------------------------------------------------------------------------
-- History invariants and the downstream speaker labelling
-- ---------------------------------------------------------------------------

/-- Every committed entry carries non-empty text. -/
def goodTexts (h : List TranscriptItem) : Prop :=
  ∀ e ∈ h, e.text ≠ []

/-- Every committed entry is attributed `user` or `model` and its text equals
its own trim. -/
def wellAttributed (h : List TranscriptItem) : Prop :=
  ∀ e ∈ h, (e.speaker = Speaker.user ∨ e.speaker = Speaker.model) ∧
    trim e.text = e.text

/-- The speaker labelling used by `analyzeTranscriptForMap`
(geminiService.ts lines 180-184): the test is `speaker === 'model'`. -/
def speakerLabel (e : TranscriptItem) : String :=
  if e.speaker = Speaker.model then "AI Co-Pilot" else "Human (Microphone)"

/-- No entry is attributed `agent`, and the downstream label identifies the
agent entries exactly. -/
def labelsConsistent (h : List TranscriptItem) : Prop :=
  ∀ e ∈ h, e.speaker ≠ Speaker.agent ∧
    (speakerLabel e = "AI Co-Pilot" ↔ e.speaker = Speaker.model)

-- ---------------------------------------------------------------------------
-- Concrete states used by witnesses and counterexamples
-- ---------------------------------------------------------------------------

/-- A connected session with pending human text and a debounce deadline far in
the future (a very long remaining quiet period). -/
def pendingState : EngineState :=
  { connectedState with currentInput := (" I felt").toList,
                        liveInputText := (" I felt").toList,
                        debounceTimer := some 1000000000000 }

/-- A connected session with text pending on both channels. -/
def bothBuffersState : EngineState :=
  { connectedState with currentInput := ("I felt").toList,
                        currentOutput := (" Ok ").toList }

/-- A session that was connected and then torn down by `handleDisconnect`. -/
def afterDisconnectState : EngineState :=
  run initState
    [(0, Event.connectReq), (0, Event.connectOpened), (10, Event.disconnectReq)]

-- ---------------------------------------------------------------------------
-- Audio encoding (geminiService.ts lines 13-35: createBlob)
-- ---------------------------------------------------------------------------

/-- Math.max(-1, Math.min(1, x)): clamp a sample to [-1, 1]. -/
def clampQ (x : ℚ) : ℚ := max (-1) (min 1 x)

/-- Integer part of a non-negative rational. -/
def natPart (q : ℚ) : Nat := q.num.toNat / q.den

/-- JS number-to-integer truncation (toward zero), as used by an
`Int16Array` element store. -/
def ratTrunc (q : ℚ) : Int :=
  if q < 0 then -(natPart (-q) : Int) else (natPart q : Int)

/-- The 16-bit pattern stored for one sample: clamp, scale by 0x8000 for
negative and 0x7FFF otherwise, truncate, and wrap to 16 bits
(geminiService.ts lines 16-21). -/
def sampleToPCM (x : ℚ) : Nat :=
  let s := clampQ x
  let v : Int := ratTrunc (if s < 0 then s * 32768 else s * 32767)
  (v % 65536).toNat

/-- The two bytes of a 16-bit word in the order a `Uint8Array` view of the
`Int16Array` buffer yields them: low byte first (little-endian). -/
def int16LEBytes (w : Nat) : List Nat := [w % 256, w / 256]

/-- The base64 alphabet used by `btoa`. -/
def b64Alphabet : Str :=
  ("ABCDEFGHIJKLMNOPQRSTUVWXYZabcdefghijklmnopqrstuvwxyz0123456789+/").toList

/-- Character of the base64 alphabet at a 6-bit index. -/
def b64char (n : Nat) : Char := b64Alphabet.getD n 'A'

/-- Model of the browser `btoa` on a byte list: standard base64 with
trailing `=` padding. -/
def btoa : List Nat → Str
  | [] => []
  | [a] => [b64char (a / 4), b64char (a % 4 * 16), '=', '=']
  | [a, b] => [b64char (a / 4), b64char (a % 4 * 16 + b / 16), b64char (b % 16 * 4), '=']
  | a :: b :: c :: rest =>
    b64char (a / 4) :: b64char (a % 4 * 16 + b / 16) :: b64char (b % 16 * 4 + c / 64) ::
      b64char (c % 64) :: btoa rest

/-- The value returned by `createBlob`. -/
structure PcmBlob where
  data : Str
  mimeType : String
deriving DecidableEq

/-- Model of `createBlob` (geminiService.ts lines 13-35): encode every sample
to a PCM16 word, lay the words out as little-endian bytes, base64-encode. -/
def createBlob (frame : List ℚ) : PcmBlob :=
  ⟨btoa ((frame.map sampleToPCM).flatMap int16LEBytes), "audio/pcm;rate=16000"⟩

/-- Byte sequence as described by the claim: each input sample is clamped to
[-1, 1], scaled by 0x8000 if negative and by 0x7FFF otherwise, and written as
a little-endian signed 16-bit value; the per-sample byte pairs are
concatenated in order. -/
def claimSampleBytes (x : ℚ) : List Nat :=
  let c := max (-1) (min 1 x)
  let v : Int := ratTrunc (if c < 0 then c * 0x8000 else c * 0x7FFF)
  [(v % 65536).toNat % 256, (v % 65536).toNat / 256]

/-- Concatenated claim-side PCM bytes of a frame. -/
def claimPCMBytes (frame : List ℚ) : List Nat :=
  (frame.map claimSampleBytes).flatten

-- ---------------------------------------------------------------------------
-- Theorems: the trim model
-- ---------------------------------------------------------------------------

theorem trimLeft_nil : trimLeft [] = [] := rfl

theorem trim_nil : trim [] = [] := rfl

theorem trimLeft_head_not_ws (s : Str) (a : Char) (h : (trimLeft s).head? = some a) :
    isWS a = false := by
  induction s with
  | nil => simp [trimLeft] at h
  | cons c t ih =>
    by_cases hc : isWS c
    · simp [trimLeft, List.dropWhile, hc] at h
      exact ih (by simpa [trimLeft] using h)
    · simp [trimLeft, List.dropWhile, hc] at h
      subst h
      simpa using hc

theorem trimLeft_eq_self_of_head (l : Str)
    (h : ∀ a, l.head? = some a → isWS a = false) : trimLeft l = l := by
  cases l with
  | nil => rfl
  | cons c t =>
    have hc : isWS c = false := h c rfl
    simp [trimLeft, List.dropWhile, hc]

theorem trimRight_head_or_nil (l : Str) :
    trimRight l = [] ∨ (trimRight l).head? = l.head? := by
  induction l with
  | nil => exact Or.inl rfl
  | cons c t ih =>
    cases ht : trimRight t with
    | nil =>
      by_cases hc : isWS c
      · exact Or.inl (by simp [trimRight, ht, hc])
      · exact Or.inr (by simp [trimRight, ht, hc])
    | cons r rs => exact Or.inr (by simp [trimRight, ht])

theorem trimRight_cons (c : Char) (l : Str) :
    trimRight (c :: l) =
      match trimRight l with
      | [] => if isWS c then [] else [c]
      | r => c :: r := rfl

theorem trimRight_idem (l : Str) : trimRight (trimRight l) = trimRight l := by
  induction l with
  | nil => rfl
  | cons c t ih =>
    rw [trimRight_cons]
    cases ht : trimRight t with
    | nil =>
      by_cases hc : isWS c <;> simp [hc, trimRight]
    | cons r rs =>
      rw [ht] at ih
      show trimRight (c :: r :: rs) = c :: r :: rs
      rw [trimRight_cons, ih]

theorem trimLeft_trimRight_trimLeft (s : Str) :
    trimLeft (trimRight (trimLeft s)) = trimRight (trimLeft s) := by
  rcases trimRight_head_or_nil (trimLeft s) with h | h
  · rw [h]; rfl
  · refine trimLeft_eq_self_of_head _ ?_
    intro a ha
    exact trimLeft_head_not_ws s a (by rw [← h]; exact ha)

/-- Trimming is idempotent. -/
theorem trim_trim (s : Str) : trim (trim s) = trim s := by
  unfold trim
  rw [trimLeft_trimRight_trimLeft, trimRight_idem]

-- ---------------------------------------------------------------------------
-- Theorems: behaviour of delta traces
-- ---------------------------------------------------------------------------

/-- Running a chained human delta trace from a state whose debounce deadline
has not yet passed only accumulates text and pushes the deadline out; nothing
is committed and no other field changes. -/
theorem run_inputDeltas (L : List (Nat × Str)) :
    ∀ (s : EngineState) (prev : Nat),
    s.debounceTimer = some (prev + quietMs) →
    s.liveInputText = s.currentInput →
    chainedOk prev L = true →
    run s (humanEvents L) =
      { s with currentInput := s.currentInput ++ deltasText L,
               liveInputText := s.currentInput ++ deltasText L,
               debounceTimer := some (lastTime prev L + quietMs) } := by
  induction L with
  | nil =>
    intro s prev h1 h2 _
    cases s
    simp_all [run, humanEvents, deltasText, lastTime]
  | cons p rest ih =>
    intro s prev h1 h2 hc
    obtain ⟨t, d⟩ := p
    simp only [chainedOk, Bool.and_eq_true, decide_eq_true_eq] at hc
    obtain ⟨⟨⟨hpt, hlt⟩, hd⟩, hrest⟩ := hc
    have hnotdue : ¬ (prev + quietMs ≤ t) := Nat.not_le.mpr hlt
    obtain ⟨cs, ci, co, li, lo, dt, h, ms, ac, so, ot⟩ := s
    simp only [EngineState.debounceTimer] at h1
    simp only [EngineState.liveInputText, EngineState.currentInput] at h2
    subst h1 h2
    rw [humanEvents, List.map_cons]
    rw [show run ⟨cs, li, co, li, lo, some (prev + quietMs), h, ms, ac, so, ot⟩
          ((t, Event.inputDelta d) :: List.map (fun p => (p.1, Event.inputDelta p.2)) rest) =
        run (step t (Event.inputDelta d)
          (fireIfDue t ⟨cs, li, co, li, lo, some (prev + quietMs), h, ms, ac, so, ot⟩))
          (List.map (fun p => (p.1, Event.inputDelta p.2)) rest) from rfl]
    rw [show fireIfDue t ⟨cs, li, co, li, lo, some (prev + quietMs), h, ms, ac, so, ot⟩ =
        ⟨cs, li, co, li, lo, some (prev + quietMs), h, ms, ac, so, ot⟩ by
      simp [fireIfDue, hnotdue]]
    rw [show step t (Event.inputDelta d)
          ⟨cs, li, co, li, lo, some (prev + quietMs), h, ms, ac, so, ot⟩ =
        ⟨cs, li ++ d, co, li ++ d, lo, some (t + quietMs), h, ms, ac, so, ot⟩ by
      simp [step, hd]]
    rw [← humanEvents]
    rw [ih ⟨cs, li ++ d, co, li ++ d, lo, some (t + quietMs), h, ms, ac, so, ot⟩ t rfl rfl hrest]
    simp [deltasText, lastTime, List.append_assoc]

-- ---------------------------------------------------------------------------
-- Claim theorems
-- ---------------------------------------------------------------------------

/-- C2: on an inbound `TurnComplete` while connected, the human channel is
committed immediately with the pending debounce timer cancelled — the result
does not depend on the stored deadline at all, however distant (`d` is an
arbitrary deadline) — and the agent channel is committed in the same atomic
step exactly when its accumulated text is non-empty after trimming. -/
theorem c2_turnComplete_commits (s : EngineState) (now : Nat) (d : Option Nat)
    (hconn : s.connectionState = ConnState.CONNECTED) :
    (step now Event.turnComplete s).debounceTimer = none ∧
    (step now Event.turnComplete s).history =
      (s.history ++
        (if trim s.currentInput = [] then [] else [mkUserEntry now (trim s.currentInput)])) ++
        (if trim s.currentOutput = [] then [] else [mkAgentEntry now (trim s.currentOutput)]) ∧
    step now Event.turnComplete { s with debounceTimer := d } =
      step now Event.turnComplete s := by
  obtain ⟨cs, ci, co, li, lo, dt, h, ms, ac, so, ot⟩ := s
  refine ⟨?_, ?_, ?_⟩ <;>
    simp only [step, commitInputToHistory] <;>
    split_ifs <;>
    simp_all

/-- C3: `handleDisconnect` moves the session to `Disconnected` with both
channel buffers (and live texts) empty and the timer cancelled, releases the
capture resources, commits the pending human text exactly when it is
non-empty after trimming, and appends no agent entry (uncommitted agent text
is discarded). -/
theorem c3_disconnect_flushes_human_only (s : EngineState) (now : Nat) :
    (step now Event.disconnectReq s).connectionState = ConnState.DISCONNECTED ∧
    (step now Event.disconnectReq s).currentInput = [] ∧
    (step now Event.disconnectReq s).currentOutput = [] ∧
    (step now Event.disconnectReq s).liveInputText = [] ∧
    (step now Event.disconnectReq s).liveOutputText = [] ∧
    (step now Event.disconnectReq s).debounceTimer = none ∧
    (step now Event.disconnectReq s).mediaStreamActive = false ∧
    (step now Event.disconnectReq s).audioContextActive = false ∧
    (step now Event.disconnectReq s).history =
      s.history ++
        (if trim s.currentInput = [] then [] else [mkUserEntry now (trim s.currentInput)]) := by
  obtain ⟨cs, ci, co, li, lo, dt, h, ms, ac, so, ot⟩ := s
  refine ⟨?_, ?_, ?_, ?_, ?_, ?_, ?_, ?_, ?_⟩ <;>
    simp only [step, commitInputToHistory] <;>
    split_ifs <;>
    simp_all

/-- C4 counterexample: from a connected session with live capture, an inbound
`Error` event moves the state to `ERROR` but leaves the microphone stream and
the audio context running — AudioCapture is not stopped, contrary to the
claim; likewise for `Closed`. -/
theorem c4_cex_error_leaves_capture_running :
    connectedState.mediaStreamActive = true ∧
    (step 5 Event.errorEvt connectedState).connectionState = ConnState.ERROR ∧
    (step 5 Event.errorEvt connectedState).mediaStreamActive = true ∧
    (step 5 Event.errorEvt connectedState).audioContextActive = true ∧
    (step 6 Event.closedEvt connectedState).connectionState = ConnState.DISCONNECTED ∧
    (step 6 Event.closedEvt connectedState).mediaStreamActive = true := by
  decide

/-- C4 (amended): an inbound `Error` (resp. `Closed`) event changes the
connection state to `ERROR` (resp. `DISCONNECTED`) and nothing else: capture
resources stay as they were, and no reconnection is attempted (the transport
fields and state machine are otherwise untouched; a new connection happens
only through a `connectReq`). -/
theorem c4_error_closed_set_state_only (s : EngineState) (now : Nat) :
    step now Event.errorEvt s = { s with connectionState := ConnState.ERROR } ∧
    step now Event.closedEvt s = { s with connectionState := ConnState.DISCONNECTED } :=
  ⟨rfl, rfl⟩

/-- C5 counterexample: invoking `handleConnect` while the session is already
`CONNECTED` is not rejected: the state changes to `CONNECTING` and a second
transport is opened while the first is still open. -/
theorem c5_cex_connect_while_connected :
    connectedState.connectionState = ConnState.CONNECTED ∧
    connectedState.openTransports = 1 ∧
    (step 3 Event.connectReq connectedState).connectionState = ConnState.CONNECTING ∧
    (step 3 Event.connectReq connectedState).openTransports = 2 := by
  decide

/-- C5 (amended): `handleConnect` has no state guard: from any state,
including `CONNECTED`, it moves the session to `CONNECTING` and opens a new
transport, overwriting the stored session handle without closing the previous
one (so the open-transport count grows); the channel buffers and the
transcript history are unchanged by it. -/
theorem c5_connect_unguarded (s : EngineState) (now : Nat) :
    step now Event.connectReq s =
      { s with connectionState := ConnState.CONNECTING,
               sessionOpen := true,
               openTransports := s.openTransports + 1 } := rfl

/-- C6: `handleDisconnect` is idempotent: a second consecutive invocation (at
any later time) changes nothing — no state transition, no resource release,
and no duplicate transcript entry. -/
theorem c6_disconnect_idempotent (s : EngineState) (now now2 : Nat) :
    step now2 Event.disconnectReq (step now Event.disconnectReq s) =
      step now Event.disconnectReq s := by
  obtain ⟨cs, ci, co, li, lo, dt, h, ms, ac, so, ot⟩ := s
  simp only [step, commitInputToHistory]
  split_ifs <;> simp_all [trim_nil]

theorem step_disconnect_history (now : Nat) (s : EngineState) :
    (step now Event.disconnectReq s).history =
      s.history ++
        (if trim s.currentInput = [] then [] else [mkUserEntry now (trim s.currentInput)]) := by
  obtain ⟨cs, ci, co, li, lo, dt, h, ms, ac, so, ot⟩ := s
  simp only [step, commitInputToHistory]
  split_ifs <;> simp_all

theorem forall_mem_append_single {p : TranscriptItem → Prop}
    (h : List TranscriptItem) (x : TranscriptItem)
    (hh : ∀ e ∈ h, p e) (hx : p x) : ∀ e ∈ h ++ [x], p e := by
  intro e he
  rcases List.mem_append.mp he with h1 | h1
  · exact hh e h1
  · rw [List.mem_singleton.mp h1]
    exact hx

/-- C7: every commit path — debounce fire, `TurnComplete` commit of either
channel, teardown flush and manual entry, i.e. every event handler — preserves
the invariant that all committed entries have non-empty text (empty or
whitespace-only accumulated text is discarded rather than appended). -/
theorem c7_committed_text_nonempty (s : EngineState) (now : Nat) (ev : Event)
    (hh : goodTexts s.history) : goodTexts (step now ev s).history := by
  obtain ⟨cs, ci, co, li, lo, dt, h, ms, ac, so, ot⟩ := s
  simp only [goodTexts] at hh ⊢
  cases ev with
  | inputDelta txt =>
    simp only [step]
    split_ifs <;> exact hh
  | outputDelta txt =>
    simp only [step]
    split_ifs <;> exact hh
  | turnComplete =>
    simp only [step, commitInputToHistory]
    split_ifs with hci hco hco
    · exact hh
    · exact forall_mem_append_single h _ hh hco
    · exact forall_mem_append_single h _ hh hci
    · exact forall_mem_append_single _ _ (forall_mem_append_single h _ hh hci) hco
  | errorEvt => exact hh
  | closedEvt => exact hh
  | connectReq => exact hh
  | connectOpened => exact hh
  | connectFailed => exact hh
  | disconnectReq =>
    rw [step_disconnect_history]
    split_ifs with hci
    · simpa using hh
    · exact forall_mem_append_single h _ hh hci
  | manualSubmit txt =>
    simp only [step]
    split_ifs with ht
    · exact hh
    · exact forall_mem_append_single h _ hh ht

/-- C7 witness: manual submission of a non-blank pasted text from the initial
state keeps every committed entry non-empty. -/
theorem c7_witness :
    goodTexts (step 4 (Event.manualSubmit ((" pasted notes ").toList)) initState).history :=
  c7_committed_text_nonempty initState 4 (Event.manualSubmit ((" pasted notes ").toList))
    (by simp [goodTexts, initState])

theorem labels_of_wellAttributed (h : List TranscriptItem)
    (hw : wellAttributed h) : labelsConsistent h := by
  intro e he
  rcases hw e he with ⟨hsp, _⟩
  refine ⟨?_, ?_, ?_⟩
  · rcases hsp with h1 | h1 <;> simp [h1]
  · intro hl
    rcases hsp with h1 | h1
    · exfalso
      simp only [speakerLabel, h1] at hl
      exact absurd hl (by decide)
    · exact h1
  · intro hm
    simp [speakerLabel, hm]

/-- C10: every event handler preserves the invariant that committed entries
are attributed `user` or `model` (never `agent`) with text equal to its own
trim; consequently the downstream labelling of `analyzeTranscriptForMap`,
which tests `speaker === 'model'`, is consistent on every reachable history. -/
theorem c10_speaker_attribution (s : EngineState) (now : Nat) (ev : Event)
    (hh : wellAttributed s.history) :
    wellAttributed (step now ev s).history ∧
    labelsConsistent (step now ev s).history := by
  have hw : wellAttributed (step now ev s).history := by
    obtain ⟨cs, ci, co, li, lo, dt, h, ms, ac, so, ot⟩ := s
    simp only [wellAttributed] at hh ⊢
    cases ev with
    | inputDelta txt =>
      simp only [step]
      split_ifs <;> exact hh
    | outputDelta txt =>
      simp only [step]
      split_ifs <;> exact hh
    | turnComplete =>
      simp only [step, commitInputToHistory]
      split_ifs with hci hco hco
      · exact hh
      · exact forall_mem_append_single h _ hh ⟨Or.inr rfl, trim_trim co⟩
      · exact forall_mem_append_single h _ hh ⟨Or.inl rfl, trim_trim ci⟩
      · exact forall_mem_append_single _ _
          (forall_mem_append_single h _ hh ⟨Or.inl rfl, trim_trim ci⟩)
          ⟨Or.inr rfl, trim_trim co⟩
    | errorEvt => exact hh
    | closedEvt => exact hh
    | connectReq => exact hh
    | connectOpened => exact hh
    | connectFailed => exact hh
    | disconnectReq =>
      rw [step_disconnect_history]
      split_ifs with hci
      · simpa using hh
      · exact forall_mem_append_single h _ hh ⟨Or.inl rfl, trim_trim ci⟩
    | manualSubmit txt =>
      simp only [step]
      split_ifs with ht
      · exact hh
      · exact forall_mem_append_single h _ hh ⟨Or.inl rfl, trim_trim txt⟩
  exact ⟨hw, labels_of_wellAttributed _ hw⟩

/-- C10 witness: a `TurnComplete` with text pending on both channels commits
a `user` and a `model` entry; the attribution and labelling invariants hold
on the result. -/
theorem c10_witness :
    wellAttributed (step 3 Event.turnComplete bothBuffersState).history ∧
    labelsConsistent (step 3 Event.turnComplete bothBuffersState).history :=
  c10_speaker_attribution bothBuffersState 3 Event.turnComplete
    (by simp [wellAttributed, bothBuffersState, connectedState, initState, run, step, fireIfDue])

/-- C2 witness: the spec scenario — pending human text and a debounce deadline
with an enormous remaining time; `TurnComplete` at time 7 commits at once,
and swapping in any other stored deadline gives the same result. -/
theorem c2_witness :
    (step 7 Event.turnComplete pendingState).debounceTimer = none ∧
    (step 7 Event.turnComplete pendingState).history =
      (pendingState.history ++
        (if trim pendingState.currentInput = [] then []
         else [mkUserEntry 7 (trim pendingState.currentInput)])) ++
        (if trim pendingState.currentOutput = [] then []
         else [mkAgentEntry 7 (trim pendingState.currentOutput)]) ∧
    step 7 Event.turnComplete { pendingState with debounceTimer := some 999 } =
      step 7 Event.turnComplete pendingState :=
  c2_turnComplete_commits pendingState 7 (some 999) (by decide)

/-- C8 counterexample: after a completed `handleDisconnect`, a late
`PartialTranscript` delivery is not discarded: it accumulates into the human
buffer, starts a debounce timer, and the timer firing later appends a
transcript entry. -/
theorem c8_cex_late_event_not_ignored :
    afterDisconnectState.connectionState = ConnState.DISCONNECTED ∧
    afterDisconnectState.history = [] ∧
    (run afterDisconnectState [(20, Event.inputDelta (("hi").toList))]).currentInput =
      ("hi").toList ∧
    (run afterDisconnectState [(20, Event.inputDelta (("hi").toList))]).debounceTimer =
      some 1520 ∧
    (fireIfDue 1520
      (run afterDisconnectState [(20, Event.inputDelta (("hi").toList))])).history.length = 1 := by
  decide

/-- C8 (amended): events delivered after a close/disconnect are tolerated —
every handler is total and no failure state exists — but they are processed
exactly as when connected rather than ignored: a late non-empty delta grows
the buffer and starts the debounce timer (and can later commit an entry). -/
theorem c8_late_events_processed (s : EngineState) (now : Nat) (txt : Str)
    (hd : s.connectionState = ConnState.DISCONNECTED) (ht : txt ≠ []) :
    (step now (Event.inputDelta txt) s).currentInput = s.currentInput ++ txt ∧
    (step now (Event.inputDelta txt) s).debounceTimer = some (now + quietMs) ∧
    (step now (Event.inputDelta txt) s).connectionState = ConnState.DISCONNECTED := by
  obtain ⟨cs, ci, co, li, lo, dt, h, ms, ac, so, ot⟩ := s
  simp_all [step]

/-- C8 witness: a late delta 10 ms after teardown is processed, not
discarded. -/
theorem c8_witness :
    (step 20 (Event.inputDelta (("hi").toList)) afterDisconnectState).currentInput =
      afterDisconnectState.currentInput ++ ("hi").toList ∧
    (step 20 (Event.inputDelta (("hi").toList)) afterDisconnectState).debounceTimer =
      some (20 + quietMs) ∧
    (step 20 (Event.inputDelta (("hi").toList)) afterDisconnectState).connectionState =
      ConnState.DISCONNECTED :=
  c8_late_events_processed afterDisconnectState 20 (("hi").toList) (by decide) (by decide)

/-- C1 counterexample: the agent channel has no debounce timer.  A non-blank
agent delta followed by a quiet period longer than 1.5 s commits nothing — the
claim requires exactly one entry with text "Hi" on that channel as well. -/
theorem c1_cex_agent_channel_has_no_debounce :
    trim (("Hi").toList) ≠ [] ∧
    connectedState.history = [] ∧
    (run connectedState [(0, Event.outputDelta (("Hi").toList))]).currentOutput =
      ("Hi").toList ∧
    (fireIfDue 2000 (run connectedState [(0, Event.outputDelta (("Hi").toList))])).history
      = [] := by
  decide

/-- C1 (amended): on the human channel only — the single debounce timer is
attached to the human channel and the agent channel has none — a sequence of
non-empty deltas with no intervening `TurnComplete`, each arriving within the
quiet period of the previous one, followed by quiet of at least 1.5 s,
commits exactly one entry whose text is the trimmed concatenation of all
deltas since the last commit (provided that concatenation is not
whitespace-only); the agent buffer is untouched by this. -/
theorem c1_human_debounce_commit (t1 : Nat) (d1 : Str) (rest : List (Nat × Str))
    (s : EngineState) (T : Nat)
    (h0 : s.debounceTimer = none) (h1 : s.currentInput = []) (h2 : d1 ≠ [])
    (h3 : chainedOk t1 rest = true) (h4 : lastTime t1 rest + quietMs ≤ T)
    (h5 : trim (d1 ++ deltasText rest) ≠ []) :
    (fireIfDue T (run s (humanEvents ((t1, d1) :: rest)))).history =
      s.history ++
        [mkUserEntry (lastTime t1 rest + quietMs) (trim (d1 ++ deltasText rest))] ∧
    (fireIfDue T (run s (humanEvents ((t1, d1) :: rest)))).currentInput = [] ∧
    (fireIfDue T (run s (humanEvents ((t1, d1) :: rest)))).debounceTimer = none ∧
    (fireIfDue T (run s (humanEvents ((t1, d1) :: rest)))).currentOutput = s.currentOutput ∧
    (fireIfDue T (run s (humanEvents ((t1, d1) :: rest)))).liveOutputText = s.liveOutputText := by
  obtain ⟨cs, ci, co, li, lo, dt, h, ms, ac, so, ot⟩ := s
  simp only [EngineState.debounceTimer] at h0
  simp only [EngineState.currentInput] at h1
  subst h0 h1
  have hrun : run ⟨cs, [], co, li, lo, none, h, ms, ac, so, ot⟩
      (humanEvents ((t1, d1) :: rest)) =
      ⟨cs, d1 ++ deltasText rest, co, d1 ++ deltasText rest, lo,
        some (lastTime t1 rest + quietMs), h, ms, ac, so, ot⟩ := by
    rw [humanEvents, List.map_cons]
    rw [show run ⟨cs, [], co, li, lo, none, h, ms, ac, so, ot⟩
          ((t1, Event.inputDelta d1) ::
            List.map (fun p => (p.1, Event.inputDelta p.2)) rest) =
        run (step t1 (Event.inputDelta d1)
          (fireIfDue t1 ⟨cs, [], co, li, lo, none, h, ms, ac, so, ot⟩))
          (List.map (fun p => (p.1, Event.inputDelta p.2)) rest) from rfl]
    rw [show fireIfDue t1 ⟨cs, [], co, li, lo, none, h, ms, ac, so, ot⟩ =
        ⟨cs, [], co, li, lo, none, h, ms, ac, so, ot⟩ from rfl]
    rw [show step t1 (Event.inputDelta d1) ⟨cs, [], co, li, lo, none, h, ms, ac, so, ot⟩ =
        ⟨cs, [] ++ d1, co, [] ++ d1, lo, some (t1 + quietMs), h, ms, ac, so, ot⟩ by
      simp [step, h2]]
    rw [← humanEvents]
    rw [run_inputDeltas rest
      ⟨cs, [] ++ d1, co, [] ++ d1, lo, some (t1 + quietMs), h, ms, ac, so, ot⟩ t1 rfl rfl h3]
    simp
  rw [hrun]
  refine ⟨?_, ?_, ?_, ?_, ?_⟩ <;>
    simp [fireIfDue, h4, commitInputToHistory, h5]

/-- C1 witness: the spec scenario — deltas "Hel" then "lo there" 50 ms apart,
then silence past the quiet period — commits exactly one entry reading
"Hello there". -/
theorem c1_witness :
    (fireIfDue 1551 (run initState
      (humanEvents ((0, ("Hel").toList) :: [(50, ("lo there").toList)])))).history =
      initState.history ++
        [mkUserEntry (lastTime 0 [(50, ("lo there").toList)] + quietMs)
          (trim (("Hel").toList ++ deltasText [(50, ("lo there").toList)]))] :=
  (c1_human_debounce_commit 0 (("Hel").toList) [(50, ("lo there").toList)] initState 1551
    rfl rfl (by decide) (by decide) (by decide) (by decide)).1

theorem pcm_bytes_bridge (frame : List ℚ) :
    (frame.map sampleToPCM).flatMap int16LEBytes = claimPCMBytes frame := by
  induction frame with
  | nil => rfl
  | cons x xs ih =>
    show int16LEBytes (sampleToPCM x) ++ (xs.map sampleToPCM).flatMap int16LEBytes =
      claimSampleBytes x ++ claimPCMBytes xs
    rw [ih]
    rfl

/-- C9: for every captured frame, `createBlob` produces mimeType
`audio/pcm;rate=16000` and data equal to the base64 encoding of the frame as
little-endian signed 16-bit PCM, each sample clamped to [-1, 1] and scaled by
0x8000 if negative and 0x7FFF otherwise (samples modelled as exact
rationals; the 4096-sample 16 kHz frames produced by `startAudioStream` are
an instance). -/
theorem c9_createBlob_encoding (frame : List ℚ) :
    (createBlob frame).mimeType = "audio/pcm;rate=16000" ∧
    (createBlob frame).data = btoa (claimPCMBytes frame) := by
  refine ⟨rfl, ?_⟩
  show btoa ((frame.map sampleToPCM).flatMap int16LEBytes) = btoa (claimPCMBytes frame)
  rw [pcm_bytes_bridge]

end AimsJM
